import Mathlib

/-!
Verification development for the ArxivSummarizer download pipeline.

The definitions below are a shallow embedding of `src/downloader.py` and
`src/util/pdftext.py`.  Python `None` becomes `Option`, Python exceptions
become `Except PyErr`, and the ambient effects (HTTP requests, filesystem
writes, the clock) become explicit oracle arguments (`World`, `clock`).
External-library behaviour that the source relies on (the `re` module's
semantics for the one regex used, `datetime.strptime` with the one format
string used, `requests.raise_for_status`, `str.find` / Python slicing) is
modelled by concrete executable functions documented at their definitions.
-/

/-- Character class of the regex token for a digit, ASCII range (the source
only ever matches ASCII digits in dates and years). -/
def isPyDigit (c : Char) : Bool := c.isDigit

/-- Character class of the regex whitespace token, ASCII range
(space, tab, newline, carriage return, vertical tab, form feed). -/
def isPySpace (c : Char) : Bool :=
  c == ' ' || c == '\t' || c == '\n' || c == '\r' || c == '\x0b' || c == '\x0c'

/-- Character class of the regex word token, ASCII range
(letters, digits, underscore). -/
def isPyWord (c : Char) : Bool := c.isAlphanum || c == '_'

/-- Model of a Python `datetime`: calendar fields plus time of day.
The Python constructor only admits year ≥ 1, month 1..12, day within the
month, hour < 24, minute < 60, second < 60; the functions below only build
values in that range. -/
structure DateTime where
  year : Nat
  month : Nat
  day : Nat
  hour : Nat
  minute : Nat
  second : Nat
  deriving DecidableEq, Repr

/-- Gregorian leap-year rule, as used by Python's `datetime` validation. -/
def isLeapYear (y : Nat) : Bool := (y % 4 == 0 && y % 100 != 0) || y % 400 == 0

/-- Number of days in a month, as enforced by the `datetime` constructor. -/
def daysInMonth (y m : Nat) : Nat :=
  if m == 2 then (if isLeapYear y then 29 else 28)
  else if m == 4 || m == 6 || m == 9 || m == 11 then 30
  else 31

/-- Injective key realising the field-lexicographic comparison of Python
datetimes on the valid field ranges (month ≤ 12, day ≤ 31, hour < 24,
minute < 60, second < 60). -/
def DateTime.key (t : DateTime) : Nat :=
  ((((t.year * 13 + t.month) * 32 + t.day) * 24 + t.hour) * 60 + t.minute) * 60 + t.second

/-- Model of the `<` comparison between two Python datetimes. -/
def DateTime.lt (a b : DateTime) : Prop := a.key < b.key

/-- Model of the `<=` comparison between two Python datetimes. -/
def DateTime.le (a b : DateTime) : Prop := a.key ≤ b.key

instance (a b : DateTime) : Decidable (a.lt b) := inferInstanceAs (Decidable (_ < _))

instance (a b : DateTime) : Decidable (a.le b) := inferInstanceAs (Decidable (_ ≤ _))

/-- One calendar day earlier, borrowing across month and year boundaries;
the time of day is unchanged. -/
def DateTime.predDay (t : DateTime) : DateTime :=
  if 1 < t.day then { t with day := t.day - 1 }
  else if 1 < t.month then { t with month := t.month - 1, day := daysInMonth t.year (t.month - 1) }
  else { t with year := t.year - 1, month := 12, day := 31 }

/-- Model of `datetime - timedelta(days=n)`: subtract `n` calendar days,
keeping the time of day. -/
def DateTime.subDays (t : DateTime) : Nat → DateTime
  | 0 => t
  | n + 1 => (t.subDays n).predDay

/-- Does `needle` occur as a contiguous run inside `hay`?  Model of the
Python membership test for substrings (`needle in hay`). -/
def listHasSub (needle : List Char) : List Char → Bool
  | [] => needle.isEmpty
  | c :: t => needle.isPrefixOf (c :: t) || listHasSub needle t

/-- Full month names of the C locale, lowercased; the alternation that the
Python strptime regex uses for the month directive, matched
case-insensitively. -/
def monthNames : List String :=
  ["january", "february", "march", "april", "may", "june",
   "july", "august", "september", "october", "november", "december"]

/-- Try each month name as a case-insensitive literal at the head of the
input; on a hit return the 1-based month number and the rest of the raw
input.  Month names are pairwise non-prefix, so at most one can match. -/
def matchMonthAux (low raw : List Char) : List String → Nat → Option (Nat × List Char)
  | [], _ => none
  | nm :: rest, i =>
    if nm.toList.isPrefixOf low then some (i, raw.drop nm.length)
    else matchMonthAux low raw rest (i + 1)

/-- Model of the strptime month-name directive at the head of the input. -/
def matchMonth (cs : List Char) : Option (Nat × List Char) :=
  matchMonthAux (cs.map Char.toLower) cs monthNames 1

/-- Greedy regex whitespace-run of length at least one: on success return
the consumed run and the remainder. -/
def takeSpaces1 (cs : List Char) : Option (List Char × List Char) :=
  let sp := cs.takeWhile isPySpace
  if sp.isEmpty then none else some (sp, cs.drop sp.length)

/-- Numeric value of a digit character. -/
def digitVal (c : Char) : Nat := c.toNat - '0'.toNat

/-- Decimal value of a digit string. -/
def natOfDigits (ds : List Char) : Nat := ds.foldl (fun a c => a * 10 + digitVal c) 0

/-- Candidate matches, in alternation order, for the strptime day
directive, whose compiled regex alternation is: 30 or 31, then 10-29, then
01-09, then a single nonzero digit.  Each candidate pairs the day value
with the remaining input; the caller tries them in order, which realises
the regex engine's backtracking. -/
def dayCandidates (cs : List Char) : List (Nat × List Char) :=
  let twoChar :=
    match cs with
    | a :: b :: r =>
      (if a == '3' && (b == '0' || b == '1') then [(30 + digitVal b, r)] else []) ++
      (if (a == '1' || a == '2') && isPyDigit b then [(digitVal a * 10 + digitVal b, r)] else []) ++
      (if a == '0' && isPyDigit b && b != '0' then [(digitVal b, r)] else [])
    | _ => []
  let oneChar :=
    match cs with
    | a :: _r => if isPyDigit a && a != '0' then [(digitVal a, cs.drop 1)] else []
    | [] => []
  twoChar ++ oneChar

/-- Continuation of the strptime format after the day: mandatory
whitespace, full month name, a comma, mandatory whitespace, exactly four
digits, end of input (strptime rejects unconverted trailing data).
Returns the month number and the year. -/
def parseAfterDay (cs : List Char) : Option (Nat × Nat) :=
  match takeSpaces1 cs with
  | none => none
  | some (_, r1) =>
    match matchMonth r1 with
    | none => none
    | some (m, r2) =>
      match r2 with
      | ',' :: r3 =>
        match takeSpaces1 r3 with
        | none => none
        | some (_, r4) =>
          let ys := r4.take 4
          if ys.length == 4 && ys.all isPyDigit && (r4.drop 4).isEmpty then
            some (m, natOfDigits ys)
          else none
      | _ => none

/-- Model of `datetime.strptime(s, "%d %B, %Y")`: the day alternatives are
tried in regex order, each continued through the rest of the format; a
regex-level failure or an out-of-range date (the constructor check) yields
`none`, standing for the `ValueError` the Python call raises. -/
def strptime_dBY (s : String) : Option DateTime :=
  match (dayCandidates s.toList).findSome? (fun dc =>
      (parseAfterDay dc.2).map (fun my => (dc.1, my.1, my.2))) with
  | none => none
  | some (d, m, y) =>
    if 1 ≤ y ∧ d ≤ daysInMonth y m then some ⟨y, m, d, 0, 0, 0⟩ else none

/-- The literal part of the submission-date regex. -/
def submittedLit : List Char := "Submitted".toList

/-- Tail of the date group after the day digits: mandatory whitespace, a
nonempty word, a comma, optional whitespace, exactly four digits.  Returns
the consumed characters. -/
def matchTail (cs : List Char) : Option (List Char) :=
  match takeSpaces1 cs with
  | none => none
  | some (sp1, r1) =>
    let wd := r1.takeWhile isPyWord
    if wd.isEmpty then none
    else
      match r1.drop wd.length with
      | ',' :: r3 =>
        let sp2 := r3.takeWhile isPySpace
        let r4 := r3.drop sp2.length
        let ys := r4.take 4
        if ys.length == 4 && ys.all isPyDigit then some (sp1 ++ wd ++ ',' :: (sp2 ++ ys))
        else none
      | _ => none

/-- The captured date group of the submission-date regex at the head of
the input: one or two digits (greedy, two tried first) followed by the
tail.  Returns the captured characters. -/
def matchGroup (cs : List Char) : Option (List Char) :=
  let two :=
    match cs with
    | d1 :: d2 :: r =>
      if isPyDigit d1 && isPyDigit d2 then (matchTail r).map (fun t => d1 :: d2 :: t) else none
    | _ => none
  match two with
  | some g => some g
  | none =>
    match cs with
    | d1 :: r => if isPyDigit d1 then (matchTail r).map (fun t => d1 :: t) else none
    | [] => none

/-- Model of the regex search in `extract_submission_date`: scan for the
leftmost position where the literal marker, optional whitespace and the
date group all match, and return the captured group. -/
def reSearchDate : List Char → Option (List Char)
  | [] => none
  | c :: t =>
    let here :=
      if submittedLit.isPrefixOf (c :: t) then
        let r1 := (c :: t).drop submittedLit.length
        matchGroup (r1.drop (r1.takeWhile isPySpace).length)
      else none
    match here with
    | some g => some g
    | none => reSearchDate t

/-- One search-result block of a listing page, as the source reads it
through BeautifulSoup: the stripped text of the first descriptive
paragraph element when one exists, and the targets of all hyperlink
elements in document order (a missing target attribute reads as ""). -/
structure ResultBlock where
  dateText : Option String
  anchors : List String
  deriving DecidableEq, Repr

/-- Model of `extract_submission_date`: no descriptive paragraph, a failed
regex search, or a failed date parse all yield `none`; otherwise the
parsed date. -/
def extract_submission_date (r : ResultBlock) : Option DateTime :=
  match r.dateText with
  | none => none
  | some t =>
    match reSearchDate t.toList with
    | none => none
    | some grp => strptime_dBY (String.mk grp)

/-- Does this hyperlink target contain the substring "pdf",
case-insensitively?  Model of the membership test in `extract_pdf_url`
(the lowering is per character, which agrees with the Python `lower()`
on the ASCII range of hyperlink targets). -/
def hrefHasPdf (href : String) : Bool :=
  listHasSub "pdf".toList (href.toList.map Char.toLower)

/-- Does the string start with the given literal?  Model of the Python
`startswith` test. -/
def strStarts (s pre : String) : Bool := pre.toList.isPrefixOf s.toList

/-- Does the string end with the given literal?  Model of the Python
`endswith` test. -/
def strEnds (s suf : String) : Bool := suf.toList.isSuffixOf s.toList

/-- Scan of the hyperlink targets in `extract_pdf_url`: the first target
containing "pdf" is taken, prefixed with the host root when it does not
start with "http". -/
def extract_pdf_url_go : List String → Option String
  | [] => none
  | href :: rest =>
    if hrefHasPdf href then
      some (if strStarts href "http" then href else "https://arxiv.org" ++ href)
    else extract_pdf_url_go rest

/-- Model of `extract_pdf_url` on a result block. -/
def extract_pdf_url (r : ResultBlock) : Option String := extract_pdf_url_go r.anchors

/-- Python exception values that the pipeline can raise or catch. -/
inductive PyErr where
  | connectionError (msg : String)
  | httpError (msg : String)
  | valueError (msg : String)
  | osError (msg : String)
  deriving DecidableEq, Repr

/-- An HTTP response, reduced to what the source reads from it:
whether `raise_for_status()` raises (an error status), and the list of
search-result blocks that parsing the body yields (empty for non-listing
bodies such as PDF payloads). -/
structure Response where
  statusError : Bool
  results : List ResultBlock
  deriving DecidableEq, Repr

/-- Outcome of one HTTP GET, as far as the source observes it: either a
transport-level failure, or a response. -/
inductive HttpOutcome where
  | failure (msg : String)
  | success (r : Response)
  deriving DecidableEq, Repr

/-- The ambient effects the pipeline touches: the network (outcome of a
GET per URL) and the filesystem (whether the write of a given path
succeeds). -/
structure World where
  http : String → HttpOutcome
  writeOk : String → Bool

/-- The parsed JSON configuration file, reduced to the one field the
source reads: the value of the "url" key when the key is present. -/
structure PyConfig where
  url? : Option String

/-- Model of `requests.get`: a transport failure raises a connection
error, otherwise the response is returned. -/
def requests_get (w : World) (url : String) : Except PyErr Response :=
  match w.http url with
  | HttpOutcome.failure m => Except.error (PyErr.connectionError m)
  | HttpOutcome.success r => Except.ok r

/-- Model of `Response.raise_for_status`: raises on an error status. -/
def raise_for_status (r : Response) : Except PyErr Unit :=
  if r.statusError then Except.error (PyErr.httpError "raise_for_status") else Except.ok ()

/-- Model of the Python `strip()`: remove whitespace from both ends. -/
def pyStrip (s : String) : String :=
  String.mk (((s.toList.dropWhile isPySpace).reverse.dropWhile isPySpace).reverse)

/-- Model of `load_config`: read the "url" key with default "", strip it,
and raise `ValueError` when the result is empty. -/
def load_config (config : PyConfig) : Except PyErr String :=
  let url := pyStrip (config.url?.getD "")
  if url = "" then Except.error (PyErr.valueError "URL not found in configuration.")
  else Except.ok url

/-- Scan computing the characters after the last "/", which is what
`pdf_url.split("/")[-1]` evaluates to. -/
def lastSegAux (cur : List Char) : List Char → List Char
  | [] => cur
  | c :: t => if c == '/' then lastSegAux [] t else lastSegAux (cur ++ [c]) t

/-- Last segment of a URL split at "/", as `pdf_url.split("/")[-1]`
computes it. -/
def url_last_segment (url : String) : String := String.mk (lastSegAux [] url.toList)

/-- Model of `os.path.join` for two POSIX path components. -/
def os_path_join (a b : String) : String :=
  if strStarts b "/" then b
  else if a = "" then b
  else if strEnds a "/" then a ++ b
  else a ++ "/" ++ b

/-- Model of `download_pdf`: GET the URL and check the status inside one
try-block whose handler returns `False`; then derive the filename from the
last URL segment and write the body inside a second try-block whose
handler also returns `False`.  The result is `Except`-valued so that
"never raises to the caller" is expressible: every branch returns `ok`. -/
def download_pdf (w : World) (pdf_url : String) (output_dir : String) : Except PyErr Bool :=
  match requests_get w pdf_url with
  | Except.error _ => Except.ok false
  | Except.ok r =>
    match raise_for_status r with
    | Except.error _ => Except.ok false
    | Except.ok _ =>
      let pdf_id := url_last_segment pdf_url
      let filename := pdf_id ++ ".pdf"
      let filepath := os_path_join output_dir filename
      if w.writeOk filepath then Except.ok true else Except.ok false

/-- Boolean success of one download, read off the `Except` result. -/
def download_success (w : World) (pdf_url : String) (output_dir : String) : Bool :=
  match download_pdf w pdf_url output_dir with
  | Except.ok b => b
  | Except.error _ => false

/-- Collection loop of the worker pool in `process_page`: each task's
result is awaited (a raised task exception would re-raise here) and each
`True` adds one to the running count. -/
def downloadAllAux (w : World) (output_dir : String) : List String → Nat → Except PyErr Nat
  | [], count => Except.ok count
  | url :: rest, count =>
    match download_pdf w url output_dir with
    | Except.error e => Except.error e
    | Except.ok ok => downloadAllAux w output_dir rest (if ok then count + 1 else count)

/-- The download phase of `process_page`: run every queued URL through
`download_pdf` and count the successes. -/
def downloadAll (w : World) (urls : List String) (output_dir : String) : Except PyErr Nat :=
  downloadAllAux w output_dir urls 0

/-- Per-result selection loop of `process_page`: skip a result with no
submission date, skip one dated strictly before the cutoff, skip one with
no payload URL, and queue the payload URL otherwise. -/
def queue_urls (results : List ResultBlock) (cutoff : DateTime) : List String :=
  results.filterMap fun r =>
    match extract_submission_date r with
    | none => none
    | some d => if d.lt cutoff then none else extract_pdf_url r

/-- The listing URL for one pagination offset. -/
def paginated_url (base_url : String) (offset : Int) : String :=
  base_url ++ "&start=" ++ toString offset

/-- Model of `process_page`: fetch the paginated listing (failures
propagate), extract and filter the results, and run the download phase
when any URL was queued. -/
def process_page (w : World) (base_url : String) (offset : Int) (cutoff : DateTime)
    (output_dir : String) : Except PyErr Nat :=
  match requests_get w (paginated_url base_url offset) with
  | Except.error e => Except.error e
  | Except.ok response =>
    match raise_for_status response with
    | Except.error e => Except.error e
    | Except.ok _ =>
      let tasks := queue_urls response.results cutoff
      if tasks.isEmpty then Except.ok 0 else downloadAll w tasks output_dir

/-- The sequential offset loop of `download_pdfs`, accumulating the total
count; a page failure propagates and ends the loop. -/
def pagesLoop (w : World) (base_url : String) (cutoff : DateTime) (output_dir : String) :
    List Int → Nat → Except PyErr Nat
  | [], total => Except.ok total
  | offset :: rest, total =>
    match process_page w base_url offset cutoff output_dir with
    | Except.error e => Except.error e
    | Except.ok c => pagesLoop w base_url cutoff output_dir rest (total + c)

/-- Model of `download_pdfs`: default the offsets to [0, 50], load the
configuration (failures propagate), fix the cutoff as the current time
minus the day window (the single clock read of the run, index 0), and run
the offset loop.  The directory creation between these steps has no
observable effect in this model. -/
def download_pdfs (w : World) (clock : Nat → DateTime) (config : PyConfig)
    (output_dir : String) (days : Nat) (offsets : Option (List Int)) : Except PyErr Nat :=
  let offs := offsets.getD [0, 50]
  match load_config config with
  | Except.error e => Except.error e
  | Except.ok base_url =>
    let cutoff := (clock 0).subDays days
    pagesLoop w base_url cutoff output_dir offs 0

/-- Does fetching this URL fail in world `w`, either at transport level or
with an error status? -/
def fetch_fails (w : World) (url : String) : Bool :=
  match w.http url with
  | HttpOutcome.failure _ => true
  | HttpOutcome.success r => r.statusError

/-- The exception that fetching this URL raises when it fails. -/
def fetchErrorOf (w : World) (url : String) : PyErr :=
  match w.http url with
  | HttpOutcome.failure m => PyErr.connectionError m
  | HttpOutcome.success _ => PyErr.httpError "raise_for_status"

/-- Concatenated page texts of `extract_section`, a space appended to each
page, with every newline then replaced by a space.  The page texts stand
for the output of the external PDF text extraction. -/
def flattenText (pages : List String) : String :=
  String.mk (((pages.foldl (fun acc p => acc ++ p ++ " ") "").toList).map
    (fun c => if c == '\n' then ' ' else c))

/-- Leftmost occurrence search underlying the Python `str.find`: the index
counter starts at `i`. -/
def strFindAux (needle : List Char) : List Char → Nat → Option Nat
  | [], i => if needle.isPrefixOf ([] : List Char) then some i else none
  | c :: t, i => if needle.isPrefixOf (c :: t) then some i else strFindAux needle t (i + 1)

/-- Model of Python `str.find`: index of the first occurrence, -1 when
there is none. -/
def strFindList (needle hay : List Char) : Int :=
  match strFindAux needle hay 0 with
  | some i => (i : Int)
  | none => -1

/-- Model of the Python slice `s[:j]` for an arbitrary integer bound:
a negative bound counts from the end, and the result is clamped to the
string. -/
def pySliceTo (cs : List Char) (j : Int) : List Char :=
  let n : Int := cs.length
  let k : Int := if j < 0 then j + n else j
  cs.take (if k < 0 then 0 else min k.toNat cs.length)

/-- Model of `extract_section` from `src/util/pdftext.py`, with the page
texts of the PDF as input: flatten, locate the "References" marker with
`str.find`, and slice up to the found index, which is -1 when the marker
is absent. -/
def extract_section (pages : List String) : String :=
  let cs := (flattenText pages).toList
  String.mk (pySliceTo cs (strFindList "References".toList cs))

instance {ε α : Type} [DecidableEq ε] [DecidableEq α] : DecidableEq (Except ε α)
  | Except.ok a, Except.ok b =>
    if h : a = b then isTrue (by rw [h]) else isFalse (by intro hc; cases hc; exact h rfl)
  | Except.ok _, Except.error _ => isFalse (by intro hc; cases hc)
  | Except.error _, Except.ok _ => isFalse (by intro hc; cases hc)
  | Except.error e, Except.error f =>
    if h : e = f then isTrue (by rw [h]) else isFalse (by intro hc; cases hc; exact h rfl)

/-- Every branch of `download_pdf` returns `ok`, and the value is the one
`download_success` reads off. -/
theorem download_pdf_eq_ok (w : World) (u d : String) :
    download_pdf w u d = Except.ok (download_success w u d) := by
  unfold download_success download_pdf
  cases hg : requests_get w u with
  | error e => simp
  | ok r =>
    simp only
    cases hs : raise_for_status r with
    | error e => simp
    | ok uu =>
      simp only
      split <;> simp

/-- The collection loop counts exactly the successful downloads, on top of
the accumulator it starts from. -/
theorem downloadAllAux_count (w : World) (d : String) :
    ∀ (urls : List String) (count : Nat),
      downloadAllAux w d urls count =
        Except.ok (count + urls.countP (fun u => download_success w u d)) := by
  intro urls
  induction urls with
  | nil => intro count; rw [downloadAllAux]; simp [List.countP_nil]
  | cons u rest ih =>
    intro count
    rw [downloadAllAux, download_pdf_eq_ok w u d]
    cases hs : download_success w u d with
    | true =>
      dsimp only
      rw [ih, List.countP_cons]
      simp only [hs, if_true, Except.ok.injEq]
      omega
    | false =>
      dsimp only
      rw [ih, List.countP_cons]
      simp [hs]

/-- The pool phase never raises: its result is `ok` with the count of
successes among the queued URLs. -/
theorem downloadAll_eq_ok (w : World) (urls : List String) (d : String) :
    downloadAll w urls d = Except.ok (urls.countP (fun u => download_success w u d)) := by
  unfold downloadAll
  rw [downloadAllAux_count]
  simp

/-- The comparison flip between the two datetime orders. -/
theorem DateTime.not_lt_iff_le (a b : DateTime) : ¬ a.lt b ↔ b.le a := by
  unfold DateTime.lt DateTime.le
  exact Nat.not_lt

/-- Membership in the queued URLs of a page: exactly the payload URLs of
results whose submission date resolves and is on or after the cutoff. -/
theorem queue_urls_mem (results : List ResultBlock) (cutoff : DateTime) (u : String) :
    u ∈ queue_urls results cutoff ↔
      ∃ r, r ∈ results ∧ ∃ dd, extract_submission_date r = some dd ∧
        cutoff.le dd ∧ extract_pdf_url r = some u := by
  unfold queue_urls
  rw [List.mem_filterMap]
  constructor
  · rintro ⟨r, hr, hf⟩
    refine ⟨r, hr, ?_⟩
    cases hd : extract_submission_date r with
    | none => rw [hd] at hf; cases hf
    | some dd =>
      rw [hd] at hf
      simp only at hf
      by_cases hlt : dd.lt cutoff
      · rw [if_pos hlt] at hf; cases hf
      · rw [if_neg hlt] at hf
        exact ⟨dd, rfl, (DateTime.not_lt_iff_le dd cutoff).mp hlt, hf⟩
  · rintro ⟨r, hr, dd, hd, hle, hp⟩
    refine ⟨r, hr, ?_⟩
    rw [hd]
    simp only
    rw [if_neg ((DateTime.not_lt_iff_le dd cutoff).mpr hle), hp]

/-- A page whose listing fetch succeeds returns an `ok` count. -/
theorem process_page_eq_ok (w : World) (base_url : String) (offset : Int) (cutoff : DateTime)
    (output_dir : String) (r : Response)
    (hr : w.http (paginated_url base_url offset) = HttpOutcome.success r)
    (hs : r.statusError = false) :
    process_page w base_url offset cutoff output_dir =
      Except.ok ((queue_urls r.results cutoff).countP
        (fun u => download_success w u output_dir)) := by
  unfold process_page requests_get
  rw [hr]
  simp only
  unfold raise_for_status
  rw [hs]
  simp only [if_false, Bool.false_eq_true]
  by_cases he : (queue_urls r.results cutoff).isEmpty
  · rw [if_pos he]
    rw [List.isEmpty_iff] at he
    rw [he]
    simp [List.countP_nil]
  · rw [if_neg he]
    exact downloadAll_eq_ok w (queue_urls r.results cutoff) output_dir

/-- A page whose listing fetch fails propagates exactly the fetch error. -/
theorem process_page_eq_error (w : World) (base_url : String) (offset : Int) (cutoff : DateTime)
    (output_dir : String)
    (hf : fetch_fails w (paginated_url base_url offset) = true) :
    process_page w base_url offset cutoff output_dir =
      Except.error (fetchErrorOf w (paginated_url base_url offset)) := by
  unfold process_page requests_get fetch_fails fetchErrorOf at *
  cases hh : w.http (paginated_url base_url offset) with
  | failure m => simp
  | success r =>
    rw [hh] at hf
    simp only at hf
    simp only
    unfold raise_for_status
    rw [hf]
    simp

/-- A page that fetches cleanly never makes the offset loop fail. -/
theorem process_page_ok_of_fetch (w : World) (base_url : String) (offset : Int)
    (cutoff : DateTime) (output_dir : String)
    (hf : fetch_fails w (paginated_url base_url offset) = false) :
    ∃ n, process_page w base_url offset cutoff output_dir = Except.ok n := by
  unfold fetch_fails at hf
  cases hh : w.http (paginated_url base_url offset) with
  | failure m => rw [hh] at hf; cases hf
  | success r =>
    rw [hh] at hf
    exact ⟨_, process_page_eq_ok w base_url offset cutoff output_dir r hh hf⟩

/-- If every offset of the first segment fetches cleanly and the next
offset's fetch fails, the offset loop ends with that fetch error, whatever
offsets follow and whatever total has been accumulated. -/
theorem pagesLoop_error_of (w : World) (base_url : String) (cutoff : DateTime)
    (output_dir : String) (bad : Int)
    (hbad : fetch_fails w (paginated_url base_url bad) = true) :
    ∀ (pre : List Int), (∀ o ∈ pre, fetch_fails w (paginated_url base_url o) = false) →
      ∀ (post : List Int) (total : Nat),
        pagesLoop w base_url cutoff output_dir (pre ++ bad :: post) total =
          Except.error (fetchErrorOf w (paginated_url base_url bad)) := by
  intro pre
  induction pre with
  | nil =>
    intro _ post total
    rw [List.nil_append, pagesLoop,
      process_page_eq_error w base_url bad cutoff output_dir hbad]
  | cons o rest ih =>
    intro hpre post total
    rw [List.cons_append, pagesLoop]
    obtain ⟨n, hn⟩ := process_page_ok_of_fetch w base_url o cutoff output_dir
      (hpre o (List.mem_cons_self o rest))
    rw [hn]
    exact ih (fun x hx => hpre x (List.mem_cons_of_mem o hx)) post (total + n)

/-- A successful find returns the first index, counted from the start
value, at which the needle is a prefix of the remaining text. -/
theorem strFindAux_some (needle : List Char) :
    ∀ (hay : List Char) (i j : Nat), strFindAux needle hay i = some j →
      ∃ k, j = i + k ∧ needle.isPrefixOf (hay.drop k) = true ∧
        ∀ m < k, needle.isPrefixOf (hay.drop m) = false := by
  intro hay
  induction hay with
  | nil =>
    intro i j h
    rw [strFindAux] at h
    by_cases hp : needle.isPrefixOf ([] : List Char) = true
    · rw [if_pos hp] at h
      cases h
      exact ⟨0, by omega, hp, fun m hm => absurd hm (Nat.not_lt_zero m)⟩
    · rw [if_neg hp] at h
      cases h
  | cons c t ih =>
    intro i j h
    rw [strFindAux] at h
    by_cases hp : needle.isPrefixOf (c :: t) = true
    · rw [if_pos hp] at h
      cases h
      exact ⟨0, by omega, hp, fun m hm => absurd hm (Nat.not_lt_zero m)⟩
    · rw [if_neg hp] at h
      obtain ⟨k, hk, hpre, hmin⟩ := ih (i + 1) j h
      refine ⟨k + 1, by omega, by simpa using hpre, ?_⟩
      intro m hm
      cases m with
      | zero => simpa using Bool.not_eq_true _ ▸ (Bool.eq_false_iff.mpr hp)
      | succ m2 =>
        have := hmin m2 (by omega)
        simpa using this

/-- The find fails exactly when the needle occurs nowhere in the hay. -/
theorem strFindAux_none_iff (needle : List Char) :
    ∀ (hay : List Char) (i : Nat),
      strFindAux needle hay i = none ↔ listHasSub needle hay = false := by
  intro hay
  induction hay with
  | nil =>
    intro i
    rw [strFindAux, listHasSub]
    by_cases hp : needle.isPrefixOf ([] : List Char) = true
    · constructor
      · intro h; rw [if_pos hp] at h; cases h
      · intro h
        exfalso
        cases needle with
        | nil => cases h
        | cons a t2 => cases hp
    · rw [if_neg hp]
      constructor
      · intro _
        cases needle with
        | nil => exact absurd rfl hp
        | cons a t2 => rfl
      · intro _; rfl
  | cons c t ih =>
    intro i
    rw [strFindAux, listHasSub]
    by_cases hp : needle.isPrefixOf (c :: t) = true
    · rw [if_pos hp, hp]
      simp
    · rw [if_neg hp]
      rw [ih (i + 1)]
      rw [Bool.not_eq_true] at hp
      rw [hp]
      simp

/-- Python slicing with a nonnegative bound within the string is a plain
take. -/
theorem pySliceTo_nat (cs : List Char) (i : Nat) (hi : i ≤ cs.length) :
    pySliceTo cs (i : Int) = cs.take i := by
  unfold pySliceTo
  dsimp only
  have h0 : ¬ ((i : Int) < 0) := by omega
  rw [if_neg h0]
  have h2 : (i : Int).toNat = i := Int.toNat_ofNat i
  rw [if_neg (by omega), h2, Nat.min_eq_left hi]

/-- Python slicing with bound -1 drops the last character. -/
theorem pySliceTo_neg_one (cs : List Char) : pySliceTo cs (-1) = cs.dropLast := by
  unfold pySliceTo
  dsimp only
  rw [if_pos (by omega : (-1 : Int) < 0)]
  cases cs with
  | nil => simp
  | cons c t =>
    have hlen : (0 : Int) < (c :: t).length := by
      simp only [List.length_cons]
      omega
    rw [if_neg (by omega)]
    have htn : (-1 + ((c :: t).length : Int)).toNat = (c :: t).length - 1 := by
      omega
    rw [htn, Nat.min_eq_left (by omega), List.dropLast_eq_take]

/-- C1: for every batch of payload URLs handed to the download phase, the
pool's return value is `ok` with exactly the number of `download_pdf`
calls that returned success, and on a cleanly fetched page that count of
the queued URLs is `process_page`'s return value; a failing download
never raises for the batch, and a batch with a failing URL still counts
the successes of every other URL in it. -/
theorem downloadAll_success_count (w : World) (urls : List String) (dir : String)
    (pre post : List String) (u base : String) (off : Int) (cutoff : DateTime) (r : Response)
    (hfail : download_success w u dir = false)
    (hfetch : w.http (paginated_url base off) = HttpOutcome.success r)
    (hst : r.statusError = false) :
    downloadAll w urls dir = Except.ok (urls.countP (fun x => download_success w x dir)) ∧
    downloadAll w (pre ++ u :: post) dir =
      Except.ok ((pre ++ post).countP (fun x => download_success w x dir)) ∧
    process_page w base off cutoff dir =
      Except.ok ((queue_urls r.results cutoff).countP (fun x => download_success w x dir)) := by
  refine ⟨downloadAll_eq_ok w urls dir, ?_,
    process_page_eq_ok w base off cutoff dir r hfetch hst⟩
  rw [downloadAll_eq_ok]
  rw [List.countP_append, List.countP_cons, hfail, List.countP_append]
  simp

/-- Sample world for the download phase: every GET succeeds with a clean
status except the second payload URL, which fails at transport level; all
file writes succeed. -/
def wPool : World :=
  ⟨fun u => if u == "https://host/p2" then HttpOutcome.failure "connection refused"
            else HttpOutcome.success ⟨false, []⟩,
   fun _ => true⟩

theorem downloadAll_success_count_witness :
    downloadAll wPool ["https://host/p1", "https://host/p2", "https://host/p3"] "out" =
      Except.ok 2 ∧
    process_page wPool "http://b?q=x" 0 ⟨2025, 3, 3, 0, 0, 0⟩ "out" = Except.ok 0 := by
  have h := downloadAll_success_count wPool
    ["https://host/p1", "https://host/p2", "https://host/p3"] "out"
    ["https://host/p1"] ["https://host/p3"] "https://host/p2" "http://b?q=x" 0
    ⟨2025, 3, 3, 0, 0, 0⟩ ⟨false, []⟩ (by decide) (by decide) (by decide)
  refine ⟨?_, ?_⟩
  · rw [h.1]
    decide
  · rw [h.2.2]
    decide

/-- C5: `download_pdf` never raises to its caller (its result is always
`ok`, carrying the boolean that `download_success` reads off), and each
failure mode -- transport failure, error status, failed filesystem
write -- yields the failure value `ok false`. -/
theorem download_pdf_failures_are_values (w : World) (u d url1 url2 url3 dir m : String)
    (r2 r3 : Response)
    (h1 : w.http url1 = HttpOutcome.failure m)
    (h2 : w.http url2 = HttpOutcome.success r2) (hr2 : r2.statusError = true)
    (h3 : w.http url3 = HttpOutcome.success r3) (hr3 : r3.statusError = false)
    (hw : w.writeOk (os_path_join dir (url_last_segment url3 ++ ".pdf")) = false) :
    download_pdf w u d = Except.ok (download_success w u d) ∧
    download_pdf w url1 dir = Except.ok false ∧
    download_pdf w url2 dir = Except.ok false ∧
    download_pdf w url3 dir = Except.ok false := by
  refine ⟨download_pdf_eq_ok w u d, ?_, ?_, ?_⟩
  · unfold download_pdf requests_get
    rw [h1]
  · unfold download_pdf requests_get raise_for_status
    rw [h2]
    simp only
    rw [hr2]
    simp
  · unfold download_pdf requests_get raise_for_status
    rw [h3]
    simp only
    rw [hr3]
    simp [hw]

/-- Sample world for the failure modes of one download: one URL fails at
transport level, one returns an error status, the rest respond cleanly;
every file write fails. -/
def wFail : World :=
  ⟨fun u => if u == "https://arxiv.org/pdf/a" then HttpOutcome.failure "refused"
            else if u == "https://arxiv.org/pdf/b" then HttpOutcome.success ⟨true, []⟩
            else HttpOutcome.success ⟨false, []⟩,
   fun _ => false⟩

theorem download_pdf_failures_are_values_witness :
    download_pdf wFail "x" "dl" = Except.ok (download_success wFail "x" "dl") ∧
    download_pdf wFail "https://arxiv.org/pdf/a" "dl" = Except.ok false ∧
    download_pdf wFail "https://arxiv.org/pdf/b" "dl" = Except.ok false ∧
    download_pdf wFail "https://arxiv.org/pdf/c" "dl" = Except.ok false :=
  download_pdf_failures_are_values wFail "x" "dl"
    "https://arxiv.org/pdf/a" "https://arxiv.org/pdf/b" "https://arxiv.org/pdf/c" "dl"
    "refused" ⟨true, []⟩ ⟨false, []⟩
    (by decide) (by decide) (by decide) (by decide) (by decide) (by decide)

/-- Resolution applied to a selected hyperlink target: absolute targets
(those starting with "http") pass through, others get the host root. -/
def resolvePdfHref (href : String) : String :=
  if strStarts href "http" then href else "https://arxiv.org" ++ href

/-- The anchor scan is the first match of the "pdf" test, resolved. -/
theorem extract_pdf_url_go_find (l : List String) :
    extract_pdf_url_go l = (l.find? hrefHasPdf).map resolvePdfHref := by
  induction l with
  | nil => rfl
  | cons h t ih =>
    rw [extract_pdf_url_go, List.find?_cons]
    cases hp : hrefHasPdf h with
    | true => simp [resolvePdfHref]
    | false => simp [ih]

/-- C2: a result whose date equals the cutoff exactly is retained (its
payload URL, when present, is queued); a result dated strictly before the
cutoff is excluded; a result with no resolvable date is excluded whatever
the cutoff; and the queued URLs of a page are exactly the payload URLs of
results whose date resolves and is on or after the cutoff. -/
theorem queue_urls_cutoff_filter (cutoff : DateTime) (r1 r2 r3 : ResultBlock) (d2 : DateTime)
    (results : List ResultBlock) (u : String)
    (h1 : extract_submission_date r1 = none)
    (h2 : extract_submission_date r2 = some d2) (hlt : d2.lt cutoff)
    (h3 : extract_submission_date r3 = some cutoff) :
    queue_urls [r1] cutoff = [] ∧
    queue_urls [r2] cutoff = [] ∧
    queue_urls [r3] cutoff = (extract_pdf_url r3).toList ∧
    (u ∈ queue_urls results cutoff ↔
      ∃ rr, rr ∈ results ∧ ∃ dd, extract_submission_date rr = some dd ∧
        cutoff.le dd ∧ extract_pdf_url rr = some u) := by
  refine ⟨?_, ?_, ?_, queue_urls_mem results cutoff u⟩
  · unfold queue_urls
    simp [h1]
  · unfold queue_urls
    simp [h2, hlt]
  · unfold queue_urls
    have hnlt : ¬ cutoff.lt cutoff := by unfold DateTime.lt; omega
    simp only [List.filterMap_cons, List.filterMap_nil, h3]
    rw [if_neg hnlt]
    cases hp : extract_pdf_url r3 <;> simp

/-- Sample result blocks: a fresh dated one with a payload link, a stale
dated one, one with no parseable date. -/
def blockFresh : ResultBlock :=
  ⟨some "Submitted 9 March, 2025; originally announced March 2025.", ["/pdf/2503.06001"]⟩

def blockStale : ResultBlock :=
  ⟨some "Submitted 1 February, 2025; originally announced February 2025.", ["/pdf/2502.00001"]⟩

def blockNoDate : ResultBlock := ⟨some "comments and sizes only", ["/pdf/2503.06002"]⟩

/-- Sample block dated exactly on the earlier cutoff used in witnesses. -/
def blockEdge : ResultBlock :=
  ⟨some "Submitted 3 March, 2025; originally announced March 2025.", ["/pdf/2503.01000"]⟩

theorem queue_urls_cutoff_filter_witness :
    queue_urls [blockNoDate] ⟨2025, 3, 3, 0, 0, 0⟩ = [] ∧
    queue_urls [blockStale] ⟨2025, 3, 3, 0, 0, 0⟩ = [] ∧
    queue_urls [blockFresh] ⟨2025, 3, 9, 0, 0, 0⟩ = (extract_pdf_url blockFresh).toList ∧
    ("https://arxiv.org/pdf/2503.06001" ∈
        queue_urls [blockFresh, blockStale] ⟨2025, 3, 3, 0, 0, 0⟩ ↔
      ∃ rr, rr ∈ [blockFresh, blockStale] ∧ ∃ dd, extract_submission_date rr = some dd ∧
        DateTime.le ⟨2025, 3, 3, 0, 0, 0⟩ dd ∧
        extract_pdf_url rr = some "https://arxiv.org/pdf/2503.06001") := by
  have ha := queue_urls_cutoff_filter ⟨2025, 3, 3, 0, 0, 0⟩ blockNoDate blockStale blockEdge
    ⟨2025, 2, 1, 0, 0, 0⟩ [blockFresh, blockStale] "https://arxiv.org/pdf/2503.06001"
    (by decide) (by decide) (by decide) (by decide)
  have hb := queue_urls_cutoff_filter ⟨2025, 3, 9, 0, 0, 0⟩ blockNoDate blockStale blockFresh
    ⟨2025, 2, 1, 0, 0, 0⟩ [blockFresh, blockStale] "https://arxiv.org/pdf/2503.06001"
    (by decide) (by decide) (by decide) (by decide)
  exact ⟨ha.1, ha.2.1, hb.2.2.1, ha.2.2.2⟩

/-- C3: a block whose descriptive text contains "Submitted 4 March, 2025"
parses to the timestamp for 2025-03-04, the no-space variant
"Submitted4 March, 2025" parses to the identical timestamp, and whenever
the marker search or the date parse fails, or there is no descriptive
text at all, the extracted date is absent (`none`) rather than an error. -/
theorem extract_submission_date_round_trip (r : ResultBlock) (t : String) (g : List Char) :
    extract_submission_date
        ⟨some "Submitted 4 March, 2025; originally announced March 2025.", ["/pdf/2503.03395"]⟩ =
      some ⟨2025, 3, 4, 0, 0, 0⟩ ∧
    extract_submission_date ⟨some "Submitted4 March, 2025", []⟩ = some ⟨2025, 3, 4, 0, 0, 0⟩ ∧
    (r.dateText = none → extract_submission_date r = none) ∧
    (r.dateText = some t → reSearchDate t.toList = none → extract_submission_date r = none) ∧
    (r.dateText = some t → reSearchDate t.toList = some g →
      strptime_dBY (String.mk g) = none → extract_submission_date r = none) := by
  refine ⟨by decide, by decide, ?_, ?_, ?_⟩
  · intro h
    unfold extract_submission_date
    rw [h]
  · intro h hs
    unfold extract_submission_date
    rw [h]
    simp only
    rw [hs]
  · intro h hs hp
    unfold extract_submission_date
    rw [h]
    simp only
    rw [hs]
    simp only
    rw [hp]

theorem extract_submission_date_round_trip_witness :
    extract_submission_date ⟨none, []⟩ = none ∧
    extract_submission_date ⟨some "comments and sizes only", []⟩ = none ∧
    extract_submission_date ⟨some "Submitted 31 February, 2025", []⟩ = none :=
  ⟨(extract_submission_date_round_trip ⟨none, []⟩ "" []).2.2.1 rfl,
   (extract_submission_date_round_trip ⟨some "comments and sizes only", []⟩
      "comments and sizes only" []).2.2.2.1 rfl (by decide),
   (extract_submission_date_round_trip ⟨some "Submitted 31 February, 2025", []⟩
      "Submitted 31 February, 2025" "31 February, 2025".toList).2.2.2.2 rfl
      (by decide) (by decide)⟩

/-- C4: the anchor scan selects the first hyperlink target containing the
case-insensitive substring "pdf"; the relative target "/pdf/2503.03395"
resolves against the host root, an absolute target passes through
unchanged, and a block none of whose targets contains "pdf" yields no
payload URL. -/
theorem extract_pdf_url_selection (r r2 : ResultBlock)
    (hnone : ∀ h ∈ r2.anchors, hrefHasPdf h = false) :
    extract_pdf_url r = (r.anchors.find? hrefHasPdf).map resolvePdfHref ∧
    extract_pdf_url ⟨none, ["/abs/2503.03395", "/pdf/2503.03395", "/pdf/zzz"]⟩ =
      some "https://arxiv.org/pdf/2503.03395" ∧
    extract_pdf_url ⟨none, ["https://arxiv.org/pdf/2503.03395", "/pdf/zzz"]⟩ =
      some "https://arxiv.org/pdf/2503.03395" ∧
    extract_pdf_url r2 = none := by
  refine ⟨extract_pdf_url_go_find r.anchors, by decide, by decide, ?_⟩
  unfold extract_pdf_url
  rw [extract_pdf_url_go_find r2.anchors]
  have : r2.anchors.find? hrefHasPdf = none := by
    rw [List.find?_eq_none]
    intro x hx
    rw [hnone x hx]
    intro hc
    cases hc
  rw [this]
  rfl

theorem extract_pdf_url_selection_witness :
    extract_pdf_url ⟨none, ["/abs/2503.03395", "/pdf/2503.03395", "/pdf/zzz"]⟩ =
      (([ "/abs/2503.03395", "/pdf/2503.03395", "/pdf/zzz"] : List String).find?
        hrefHasPdf).map resolvePdfHref ∧
    extract_pdf_url ⟨none, ["/abs/2503.03395", "/format/2503.03395"]⟩ = none := by
  have h := extract_pdf_url_selection
    ⟨none, ["/abs/2503.03395", "/pdf/2503.03395", "/pdf/zzz"]⟩
    ⟨none, ["/abs/2503.03395", "/format/2503.03395"]⟩
    (by decide)
  exact ⟨h.1, h.2.2.2⟩

/-- Unfolding equation of the offset loop on an empty offset list. -/
theorem pagesLoop_nil (w : World) (b : String) (c : DateTime) (d : String) (total : Nat) :
    pagesLoop w b c d [] total = Except.ok total := rfl

/-- Unfolding equation of the offset loop on a leading offset. -/
theorem pagesLoop_cons (w : World) (b : String) (c : DateTime) (d : String)
    (o : Int) (rest : List Int) (total : Nat) :
    pagesLoop w b c d (o :: rest) total =
      (match process_page w b o c d with
       | Except.error e => Except.error e
       | Except.ok n => pagesLoop w b c d rest (total + n)) := rfl

/-- C6: when the listing fetch for some offset fails (transport error or
error status) after the earlier offsets fetched cleanly, the failure
propagates out of the driver as that fetch's exception: the run produces
no total count, and the result is the same whatever offsets follow the
failing one (they are never processed). -/
theorem fetch_failure_aborts_run (w : World) (clock : Nat → DateTime) (cfg : PyConfig)
    (dir base : String) (days : Nat) (pre post : List Int) (bad : Int)
    (hload : load_config cfg = Except.ok base)
    (hpre : ∀ o ∈ pre, fetch_fails w (paginated_url base o) = false)
    (hbad : fetch_fails w (paginated_url base bad) = true) :
    download_pdfs w clock cfg dir days (some (pre ++ bad :: post)) =
      Except.error (fetchErrorOf w (paginated_url base bad)) := by
  unfold download_pdfs
  rw [hload]
  simp only
  exact pagesLoop_error_of w base ((clock 0).subDays days) dir bad hbad pre hpre post 0

/-- Sample configuration with a well-formed base URL. -/
def cfgOk : PyConfig := ⟨some "http://b?q=x"⟩

/-- Sample run-start clock. -/
def clock0 : Nat → DateTime := fun _ => ⟨2025, 3, 10, 9, 30, 0⟩

/-- Sample world where only the first listing page responds: every other
URL fails at transport level. -/
def wDown : World :=
  ⟨fun u => if u == "http://b?q=x&start=0" then HttpOutcome.success ⟨false, []⟩
            else HttpOutcome.failure "net down",
   fun _ => true⟩

theorem fetch_failure_aborts_run_witness :
    download_pdfs wDown clock0 cfgOk "dl" 7 (some [0, 50, 100]) =
      Except.error (fetchErrorOf wDown (paginated_url "http://b?q=x" 50)) :=
  fetch_failure_aborts_run wDown clock0 cfgOk "dl" "http://b?q=x" 7 [0] [100] 50
    (by decide) (by decide) (by decide)

/-- C7: when the configuration lacks the "url" field or its value strips
to the empty string, the run fails with exactly the configuration error,
for every world, clock, output directory, day window and offset list --
in particular no network or filesystem behaviour can influence the
result, and no downloaded count is produced. -/
theorem missing_config_url_aborts (cfg : PyConfig) (w : World) (clock : Nat → DateTime)
    (dir : String) (days : Nat) (offs : Option (List Int))
    (h : pyStrip (cfg.url?.getD "") = "") :
    download_pdfs w clock cfg dir days offs =
      Except.error (PyErr.valueError "URL not found in configuration.") := by
  unfold download_pdfs load_config
  rw [h]
  simp

theorem missing_config_url_aborts_witness :
    download_pdfs wDown clock0 ⟨none⟩ "dl" 7 none =
      Except.error (PyErr.valueError "URL not found in configuration.") ∧
    download_pdfs wPool clock0 ⟨some "   "⟩ "dl" 7 (some [0]) =
      Except.error (PyErr.valueError "URL not found in configuration.") :=
  ⟨missing_config_url_aborts ⟨none⟩ wDown clock0 "dl" 7 none (by decide),
   missing_config_url_aborts ⟨some "   "⟩ wPool clock0 "dl" 7 (some [0]) (by decide)⟩

/-- C8: the run's cutoff is the single run-start clock reading (index 0)
minus the configured day count, and the whole offset loop runs against
that one value, so every page of the run is filtered with an identical
cutoff; a clock differing anywhere except at the run-start reading leaves
the run unchanged. -/
theorem cutoff_fixed_at_run_start (w : World) (clock clock2 : Nat → DateTime)
    (cfg : PyConfig) (dir base : String) (days : Nat) (offs : List Int)
    (hload : load_config cfg = Except.ok base) (hc : clock2 0 = clock 0) :
    download_pdfs w clock cfg dir days (some offs) =
      pagesLoop w base ((clock 0).subDays days) dir offs 0 ∧
    download_pdfs w clock2 cfg dir days (some offs) =
      download_pdfs w clock cfg dir days (some offs) := by
  constructor
  · unfold download_pdfs
    rw [hload]
    rfl
  · unfold download_pdfs
    rw [hload, hc]

/-- Sample clock agreeing with `clock0` only at the run-start reading. -/
def clockAlt : Nat → DateTime :=
  fun n => if n == 0 then ⟨2025, 3, 10, 9, 30, 0⟩ else ⟨1999, 1, 1, 0, 0, 0⟩

theorem cutoff_fixed_at_run_start_witness :
    download_pdfs wDown clock0 cfgOk "dl" 7 (some [0, 50]) =
      pagesLoop wDown "http://b?q=x" ((clock0 0).subDays 7) "dl" [0, 50] 0 ∧
    download_pdfs wDown clockAlt cfgOk "dl" 7 (some [0, 50]) =
      download_pdfs wDown clock0 cfgOk "dl" 7 (some [0, 50]) :=
  cutoff_fixed_at_run_start wDown clock0 clockAlt cfgOk "dl" "http://b?q=x" 7 [0, 50]
    (by decide) (by decide)

/-- C10: a run with no explicit offsets behaves exactly as one given
[0, 50]: the default is applied before the configuration is read (the
equality holds for every configuration, valid or not), and the run then
processes exactly offset 0 followed by offset 50, summing their counts. -/
theorem default_offsets_zero_fifty (w : World) (clock : Nat → DateTime)
    (cfg cfg2 : PyConfig) (dir base : String) (days : Nat)
    (hload : load_config cfg = Except.ok base) :
    download_pdfs w clock cfg2 dir days none =
      download_pdfs w clock cfg2 dir days (some [0, 50]) ∧
    download_pdfs w clock cfg dir days none =
      (match process_page w base 0 ((clock 0).subDays days) dir with
       | Except.error e => Except.error e
       | Except.ok c0 =>
         match process_page w base 50 ((clock 0).subDays days) dir with
         | Except.error e => Except.error e
         | Except.ok c50 => Except.ok (c0 + c50)) := by
  constructor
  · rfl
  · unfold download_pdfs
    rw [hload]
    simp only [Option.getD_none]
    cases h0 : process_page w base 0 ((clock 0).subDays days) dir with
    | error e => rw [pagesLoop_cons, h0]
    | ok c0 =>
      rw [pagesLoop_cons, h0]
      simp only
      cases h50 : process_page w base 50 ((clock 0).subDays days) dir with
      | error e => rw [pagesLoop_cons, h50]
      | ok c50 =>
        rw [pagesLoop_cons, h50]
        simp only
        rw [pagesLoop_nil]
        simp

theorem default_offsets_zero_fifty_witness :
    download_pdfs wPool clock0 ⟨none⟩ "dl" 7 none =
      download_pdfs wPool clock0 ⟨none⟩ "dl" 7 (some [0, 50]) ∧
    download_pdfs wPool clock0 cfgOk "dl" 7 none =
      (match process_page wPool "http://b?q=x" 0 ((clock0 0).subDays 7) "dl" with
       | Except.error e => Except.error e
       | Except.ok c0 =>
         match process_page wPool "http://b?q=x" 50 ((clock0 0).subDays 7) "dl" with
         | Except.error e => Except.error e
         | Except.ok c50 => Except.ok (c0 + c50)) :=
  default_offsets_zero_fifty wPool clock0 cfgOk ⟨none⟩ "dl" "http://b?q=x" 7 (by decide)

/-- C9: the extracted section is the flattened (newline-stripped) page
text truncated at the first occurrence of the literal "References"
(marker and everything after it excluded); when the marker is absent the
find returns the invalid slice bound -1, and the slice then silently
drops the final character of the flattened text instead of truncating at
a marker. -/
theorem extract_section_truncation (pages : List String) (j : Nat) :
    (listHasSub "References".toList (flattenText pages).toList = true →
      0 ≤ strFindList "References".toList (flattenText pages).toList ∧
      "References".toList.isPrefixOf ((flattenText pages).toList.drop
        (strFindList "References".toList (flattenText pages).toList).toNat) = true ∧
      ((j : Int) < strFindList "References".toList (flattenText pages).toList →
        "References".toList.isPrefixOf ((flattenText pages).toList.drop j) = false) ∧
      extract_section pages = String.mk ((flattenText pages).toList.take
        (strFindList "References".toList (flattenText pages).toList).toNat)) ∧
    (listHasSub "References".toList (flattenText pages).toList = false →
      strFindList "References".toList (flattenText pages).toList = -1 ∧
      extract_section pages = String.mk (flattenText pages).toList.dropLast) := by
  constructor
  · intro hhas
    cases hfa : strFindAux "References".toList (flattenText pages).toList 0 with
    | none =>
      rw [strFindAux_none_iff] at hfa
      rw [hfa] at hhas
      cases hhas
    | some i =>
      obtain ⟨k, hk, hpre, hmin⟩ := strFindAux_some "References".toList
        (flattenText pages).toList 0 i hfa
      have hik : i = k := by omega
      subst hik
      have hfind : strFindList "References".toList (flattenText pages).toList = (i : Int) := by
        unfold strFindList
        rw [hfa]
      have htn : ((i : Int)).toNat = i := Int.toNat_ofNat i
      have hlen : i ≤ (flattenText pages).toList.length := by
        by_contra hgt
        push_neg at hgt
        rw [List.drop_eq_nil_of_le (Nat.le_of_lt hgt)] at hpre
        cases hpre
      refine ⟨by rw [hfind]; omega, ?_, ?_, ?_⟩
      · rw [hfind, htn]
        exact hpre
      · intro hj
        rw [hfind] at hj
        exact hmin j (by omega)
      · unfold extract_section
        dsimp only
        rw [hfind, htn, pySliceTo_nat (flattenText pages).toList i hlen]
  · intro hno
    have hfa : strFindAux "References".toList (flattenText pages).toList 0 = none :=
      (strFindAux_none_iff "References".toList (flattenText pages).toList 0).mpr hno
    have hfind : strFindList "References".toList (flattenText pages).toList = -1 := by
      unfold strFindList
      rw [hfa]
    refine ⟨hfind, ?_⟩
    unfold extract_section
    dsimp only
    rw [hfind, pySliceTo_neg_one]

theorem extract_section_truncation_witness :
    extract_section ["Body text", "More References tail"] = "Body text More " ∧
    extract_section ["plain text\nonly"] = "plain text only" := by
  have h1 := (extract_section_truncation ["Body text", "More References tail"] 0).1 (by decide)
  have h2 := (extract_section_truncation ["plain text\nonly"] 0).2 (by decide)
  constructor
  · rw [h1.2.2.2]
    decide
  · rw [h2.2]
    decide
